import Mathlib

/-!
Verification of the NAA.K.T. material-name generator
(`NAAKTGenerator.pushbutton/script.py`) against its specification.

The Python source is shallowly embedded: strings are Lean `String`s
(character-list based helpers mirror Python's `lower`/`strip`/`replace`/
`startswith`/`in` operations on the ASCII data that flows through the tool),
Python lists are Lean `List`s, Python dicts are association lists with
insertion-order semantics and unique keys, JSON files are modelled by the
data that would be written to them, and the Revit host document is a list
of material records mutated under explicit transaction semantics.
-/

namespace NAAKT

/-! ### String helpers (Python `lower` / `strip` / `replace` / `startswith` / `in`) -/

/-- Python `s.lower()` (the tool only feeds ASCII through this path). -/
def lowerStr (s : String) : String := String.mk (s.data.map Char.toLower)

/-- Python `strip()` on a character list: drop whitespace on both ends. -/
def stripChars (l : List Char) : List Char :=
  ((l.dropWhile Char.isWhitespace).reverse.dropWhile Char.isWhitespace).reverse

/-- Python `s.strip()`. -/
def stripStr (s : String) : String := String.mk (stripChars s.data)

/-- `naam.lower().strip()` — the normalization applied by every `add_*`
method of `NAAKTData` (script.py lines 196, 208, 217). -/
def normName (s : String) : String := stripStr (lowerStr s)

/-- Python `needle in hay` on strings: contiguous-substring test. -/
def containsSub : List Char → List Char → Bool
  | needle, [] => needle.isEmpty
  | needle, c :: rest => needle.isPrefixOf (c :: rest) || containsSub needle rest

/-! ### Keyword table and matcher (`MATERIAAL_KEYWORDS`,
`MateriaalHelper.find_closest_material`, script.py lines 101-320) -/

/-- `MATERIAAL_KEYWORDS` (script.py lines 101-116), verbatim. -/
def MATERIAAL_KEYWORDS : List (String × List String) := [
  ("beton", ["beton", "concrete", "cementgebonden"]),
  ("hout", ["hout", "wood", "timber", "eiken", "grenen", "multiplex", "mdf", "osb"]),
  ("isolatie", ["isolatie", "insulation", "eps", "xps", "pir", "pur", "minerale wol", "glaswol", "rotswol"]),
  ("metaal", ["metaal", "metal", "staal", "steel", "aluminium", "alu", "zink", "koper"]),
  ("steen", ["steen", "stone", "baksteen", "brick", "kalkzandsteen", "natuursteen"]),
  ("gips", ["gips", "gypsum", "gyproc", "fermacell"]),
  ("glas", ["glas", "glass", "beglazing"]),
  ("folie", ["folie", "dampremmend", "dampopen", "membraan", "barrier"]),
  ("lucht", ["lucht", "air", "spouw", "cavity"]),
  ("kunststof", ["kunststof", "plastic", "pvc", "pe", "hdpe", "ldpe"]),
  ("bitumen", ["bitumen", "dakbedekking", "roofing"]),
  ("verf", ["verf", "paint", "coating", "latex"]),
  ("tegels", ["tegel", "tile", "keramisch", "ceramic"]),
  ("mortel", ["mortel", "mortar", "voeg", "specie"])]

/-- `MATERIAAL_KEYWORDS.get(naakt_naam.lower(), [naakt_naam.lower()])`
(script.py line 297); the argument is the already-lowercased name. -/
def keywordsFor (naamLower : String) : List String :=
  (List.lookup naamLower MATERIAAL_KEYWORDS).getD [naamLower]

/-- The per-candidate score of the inner loop of `find_closest_material`
(script.py lines 303-311): for every keyword contained in the lowercased
material name, add 10 on exact equality, 5 on prefix, else 2. -/
def matScore (keywords : List String) (matNameLower : String) : Nat :=
  keywords.foldl (fun acc kw =>
    if containsSub kw.data matNameLower.data then
      acc + (if matNameLower == kw then 10
             else if kw.data.isPrefixOf matNameLower.data then 5 else 2)
    else acc) 0

/-- Score of one material (identified by its display name) against a
NAA.K.T. name, as computed by `find_closest_material`. -/
def candScore (naam mat : String) : Nat :=
  matScore (keywordsFor (lowerStr naam)) (lowerStr mat)

/-- The `best_match` / `best_score` accumulation loop of
`find_closest_material` (script.py lines 298-315): update only on a
strictly larger score. -/
def bestLoop (sc : String → Nat) : List String → Option String → Nat → Option String
  | [], best, _ => best
  | m :: rest, best, bs =>
      if bs < sc m then bestLoop sc rest (some m) (sc m)
      else bestLoop sc rest best bs

/-- `MateriaalHelper.find_closest_material` (script.py lines 291-320);
materials are represented by their display names. -/
def find_closest_material (naam : String) (materials : List String) : Option String :=
  if materials.isEmpty then none
  else
    match bestLoop (candScore naam) materials none 0 with
    | some m => some m
    | none => materials.head?

/-! ### Taxonomy store (`NAAKTData`, script.py lines 122-229)

A Python dict keyed by name is an association list with unique keys and
insertion order; the three JSON files are modelled by the data that the
last `save_*` call wrote into them (`beschrijving` is a constant banner
and is not modelled). -/

/-- A Python dict `name -> list of strings`. -/
abbrev Table := List (String × List String)

/-- The dict's key view (`d.keys()`). -/
def tableKeys (t : Table) : List String := t.map Prod.fst

/-- Python `d.get(k)` / `d[k]`: first binding wins (keys are unique). -/
def tableGet (t : Table) (k : String) : Option (List String) := List.lookup k t

/-- Python `d[k] = v`: replace in place if the key exists, append otherwise. -/
def tableSet : Table → String → List String → Table
  | [], k, v => [(k, v)]
  | (k', v') :: rest, k, v =>
      if k' == k then (k, v) :: rest else (k', v') :: tableSet rest k v

/-- Python string comparison: lexicographic on the code-point sequence. -/
def strLe (a b : String) : Prop := a.data ≤ b.data

instance : IsTotal String (fun a b : String => a.data ≤ b.data) :=
  ⟨fun a b => le_total a.data b.data⟩

instance : IsTrans String (fun a b : String => a.data ≤ b.data) :=
  ⟨fun _ _ _ h₁ h₂ => le_trans h₁ h₂⟩

instance : IsAntisymm String (fun a b : String => a.data ≤ b.data) :=
  ⟨fun a b h₁ h₂ => by cases a; cases b; exact congrArg String.mk (le_antisymm h₁ h₂)⟩

/-- Python `sorted(...)` on strings: stable ascending sort in the
code-point lexicographic order. -/
def sortStrings (l : List String) : List String :=
  List.insertionSort (fun a b => a.data ≤ b.data) l

/-- The sorted-dict comprehension of `save_kenmerken`/`save_toepassingen`
(script.py lines 178-179, 187-188): sorted keys, each with sorted values. -/
def sortTable (t : Table) : Table :=
  (sortStrings (tableKeys t)).map (fun k => (k, sortStrings ((tableGet t k).getD [])))

/-- `NAAKTData` state: the three in-memory tables plus the contents last
written to the three JSON files. -/
structure Store where
  namen : List String
  kenmerken : Table
  toepassingen : Table
  fnamen : List String
  fkenmerken : Table
  ftoepassingen : Table

/-- `save_namen` (script.py lines 170-175): writes the sorted name list. -/
def save_namen (st : Store) : Store := { st with fnamen := sortStrings st.namen }

/-- `save_kenmerken` (script.py lines 177-184). -/
def save_kenmerken (st : Store) : Store := { st with fkenmerken := sortTable st.kenmerken }

/-- `save_toepassingen` (script.py lines 186-193). -/
def save_toepassingen (st : Store) : Store :=
  { st with ftoepassingen := sortTable st.toepassingen }

/-- `NAAKTData.add_naam` (script.py lines 195-205). -/
def add_naam (st : Store) (raw : String) : Store × Bool :=
  let naam := normName raw
  if naam ≠ "" ∧ naam ∉ st.namen then
    let st1 := { st with
      namen := st.namen ++ [naam],
      kenmerken := tableSet st.kenmerken naam ["generiek", "ntb"],
      toepassingen := tableSet st.toepassingen naam ["generiek", "ntb"] }
    (save_toepassingen (save_kenmerken (save_namen st1)), true)
  else (st, false)

/-- `NAAKTData.add_kenmerk` (script.py lines 207-214): only `kenmerk` is
normalized; failure paths return the state untouched (no file write). -/
def add_kenmerk (st : Store) (naam raw : String) : Store × Bool :=
  let kenmerk := normName raw
  match tableGet st.kenmerken naam with
  | none => (st, false)
  | some cur =>
      if kenmerk ≠ "" then
        if kenmerk ∉ cur then
          (save_kenmerken
            { st with kenmerken := tableSet st.kenmerken naam (cur ++ [kenmerk]) }, true)
        else (st, false)
      else (st, false)

/-- `NAAKTData.add_toepassing` (script.py lines 216-223). -/
def add_toepassing (st : Store) (naam raw : String) : Store × Bool :=
  let toepassing := normName raw
  match tableGet st.toepassingen naam with
  | none => (st, false)
  | some cur =>
      if toepassing ≠ "" then
        if toepassing ∉ cur then
          (save_toepassingen
            { st with toepassingen := tableSet st.toepassingen naam (cur ++ [toepassing]) },
           true)
        else (st, false)
      else (st, false)

/-- `NAAKTData.get_kenmerken` (script.py lines 225-226):
`sorted(self.kenmerken_per_naam.get(naam, []))`. -/
def get_kenmerken (st : Store) (naam : String) : List String :=
  sortStrings ((tableGet st.kenmerken naam).getD [])

/-- `NAAKTData.get_toepassingen` (script.py lines 228-229). -/
def get_toepassingen (st : Store) (naam : String) : List String :=
  sortStrings ((tableGet st.toepassingen naam).getD [])

/-! ### Loading (`NAAKTData.load_data`, script.py lines 131-159)

A file on disk is either absent, present but not valid JSON, or valid —
in the last case the payload is the relevant field of the parsed document
(`data.get(key, default)`; BOM stripping happens before parsing and is
absorbed into the parse outcome). All three reads happen inside one
`try`, so a parse error aborts the remaining reads but keeps the
assignments already made. -/

inductive FileContent (α : Type) where
  | missing : FileContent α
  | malformed : FileContent α
  | ok : α → FileContent α

/-- `NAAKTData.load_data`: returns the `(namen, kenmerken, toepassingen)`
collections produced from the three files, mirroring the single
`try`/`except` around the three sequential reads. -/
def load_data (fn : FileContent (List String)) (fk ft : FileContent Table) :
    List String × Table × Table :=
  match fn with
  | .malformed => ([], [], [])
  | _ =>
    let namen := match fn with | .ok l => l | _ => []
    match fk with
    | .malformed => (namen, [], [])
    | _ =>
      let ken := match fk with | .ok t => t | _ => []
      match ft with
      | .malformed => (namen, ken, [])
      | _ => (namen, ken, match ft with | .ok t => t | _ => [])

/-! ### Sorting lemmas -/

theorem sortStrings_sorted (l : List String) :
    List.Sorted (fun a b : String => a.data ≤ b.data) (sortStrings l) :=
  List.sorted_insertionSort _ l

theorem sortStrings_perm (l : List String) : List.Perm (sortStrings l) l :=
  List.perm_insertionSort _ l

theorem sortStrings_eq_of_perm {l₁ l₂ : List String} (h : List.Perm l₁ l₂) :
    sortStrings l₁ = sortStrings l₂ :=
  List.eq_of_perm_of_sorted ((sortStrings_perm l₁).trans (h.trans (sortStrings_perm l₂).symm))
    (sortStrings_sorted l₁) (sortStrings_sorted l₂)

theorem sortStrings_mem {l : List String} {x : String} : x ∈ sortStrings l ↔ x ∈ l :=
  (sortStrings_perm l).mem_iff

/-! ### Matcher lemmas -/

/-- If no element of `l` beats the running best score, the loop keeps the
current best. -/
theorem bestLoop_of_le (sc : String → Nat) :
    ∀ (l : List String) (b : Option String) (s : Nat),
      (∀ m ∈ l, sc m ≤ s) → bestLoop sc l b s = b := by
  intro l
  induction l with
  | nil => intro b s _; rfl
  | cons m rest ih =>
      intro b s h
      have hm : ¬ s < sc m := not_lt.mpr (h m (List.mem_cons_self m rest))
      simp only [bestLoop, if_neg hm]
      exact ih b s (fun x hx => h x (List.mem_cons_of_mem _ hx))

/-- The loop returns the first element whose score strictly exceeds the
initial running score and is maximal: elements before it score strictly
lower, elements after it score no higher. -/
theorem bestLoop_pick (sc : String → Nat) :
    ∀ (l₁ : List String) (t : String) (l₂ : List String) (b : Option String) (s : Nat),
      s < sc t → (∀ x ∈ l₁, sc x < sc t) → (∀ x ∈ l₂, sc x ≤ sc t) →
      bestLoop sc (l₁ ++ t :: l₂) b s = some t := by
  intro l₁
  induction l₁ with
  | nil =>
      intro t l₂ b s hs _ hafter
      simp only [List.nil_append, bestLoop, if_pos hs]
      exact bestLoop_of_le sc l₂ (some t) (sc t) hafter
  | cons m l₁ ih =>
      intro t l₂ b s hs hbefore hafter
      have hmt : sc m < sc t := hbefore m (List.mem_cons_self m l₁)
      have hbefore' : ∀ x ∈ l₁, sc x < sc t :=
        fun x hx => hbefore x (List.mem_cons_of_mem _ hx)
      by_cases hm : s < sc m
      · simp only [List.cons_append, bestLoop, if_pos hm]
        exact ih t l₂ (some m) (sc m) hmt hbefore' hafter
      · simp only [List.cons_append, bestLoop, if_neg hm]
        exact ih t l₂ b s hs hbefore' hafter

/-- Every non-empty list decomposes around its first score-maximal element. -/
theorem exists_first_argmax (sc : String → Nat) :
    ∀ (l : List String), l ≠ [] →
      ∃ l₁ t l₂, l = l₁ ++ t :: l₂ ∧ (∀ x ∈ l₁, sc x < sc t) ∧ (∀ x ∈ l, sc x ≤ sc t) := by
  intro l
  induction l with
  | nil => intro h; exact absurd rfl h
  | cons m rest ih =>
      intro _
      rcases eq_or_ne rest [] with rfl | hne
      · exact ⟨[], m, [], rfl, by simp, by simp⟩
      · obtain ⟨l₁, t, l₂, hsplit, hbefore, hmax⟩ := ih hne
        by_cases hmt : sc t ≤ sc m
        · refine ⟨[], m, rest, rfl, by simp, ?_⟩
          intro x hx
          rcases List.mem_cons.mp hx with rfl | hx
          · exact le_rfl
          · exact le_trans (hmax x hx) hmt
        · refine ⟨m :: l₁, t, l₂, by rw [hsplit, List.cons_append], ?_, ?_⟩
          · intro x hx
            rcases List.mem_cons.mp hx with rfl | hx
            · exact not_le.mp hmt
            · exact hbefore x hx
          · intro x hx
            rcases List.mem_cons.mp hx with rfl | hx
            · exact le_of_lt (not_le.mp hmt)
            · exact hmax x hx

/-- Characterization of `find_closest_material` on a non-empty candidate
list: it returns the first candidate of maximal score (elements before it
score strictly lower). -/
theorem find_closest_spec (naam : String) (mats : List String) (h : mats ≠ []) :
    ∃ l₁ best l₂, mats = l₁ ++ best :: l₂ ∧
      find_closest_material naam mats = some best ∧
      (∀ x ∈ mats, candScore naam x ≤ candScore naam best) ∧
      (∀ x ∈ l₁, candScore naam x < candScore naam best) := by
  have hne : ¬ (mats.isEmpty = true) := by simp [List.isEmpty_iff, h]
  obtain ⟨l₁, t, l₂, hsplit, hbefore, hmax⟩ := exists_first_argmax (candScore naam) mats h
  by_cases h0 : 0 < candScore naam t
  · refine ⟨l₁, t, l₂, hsplit, ?_, hmax, hbefore⟩
    have hafter : ∀ x ∈ l₂, candScore naam x ≤ candScore naam t := by
      intro x hx
      exact hmax x (by rw [hsplit]; exact List.mem_append_right _ (List.mem_cons_of_mem _ hx))
    unfold find_closest_material
    rw [if_neg hne, hsplit, bestLoop_pick (candScore naam) l₁ t l₂ none 0 h0 hbefore hafter]
  · have ht0 : candScore naam t = 0 := Nat.eq_zero_of_not_pos h0
    have hall : ∀ x ∈ mats, candScore naam x = 0 := by
      intro x hx
      exact Nat.le_zero.mp (ht0 ▸ hmax x hx)
    cases mats with
    | nil => exact absurd rfl h
    | cons m rest =>
        refine ⟨[], m, rest, rfl, ?_, ?_, by simp⟩
        · unfold find_closest_material
          rw [if_neg hne,
            bestLoop_of_le (candScore naam) (m :: rest) none 0
              (fun x hx => le_of_eq (hall x hx))]
          rfl
        · intro x hx
          rw [hall x hx, hall m (List.mem_cons_self m rest)]

/-- C3: `find_closest_material` scores candidates by summing keyword hits
(10 exact / 5 prefix / 2 substring, see `matScore`), returns the candidate
with the strictly highest total score, first-encountered winning ties; on
the `hout` keyword table with candidates "Hout", "Houten kozijn", "Staal"
(scores 10 / 5 / 0) it selects "Hout". -/
theorem matcher_first_strict_max (naam : String) (mats : List String) (h : mats ≠ []) :
    (∃ l₁ best l₂, mats = l₁ ++ best :: l₂ ∧
      find_closest_material naam mats = some best ∧
      (∀ x ∈ mats, candScore naam x ≤ candScore naam best) ∧
      (∀ x ∈ l₁, candScore naam x < candScore naam best)) ∧
    candScore "hout" "Hout" = 10 ∧
    candScore "hout" "Houten kozijn" = 5 ∧
    candScore "hout" "Staal" = 0 ∧
    find_closest_material "hout" ["Hout", "Houten kozijn", "Staal"] = some "Hout" := by
  exact ⟨find_closest_spec naam mats h, by decide, by decide, by decide, by decide⟩

/-- Witness for `matcher_first_strict_max` at a concrete candidate list. -/
theorem matcher_first_strict_max_witness :
    (∃ l₁ best l₂, (["Hout", "Houten kozijn", "Staal"] : List String) = l₁ ++ best :: l₂ ∧
      find_closest_material "hout" ["Hout", "Houten kozijn", "Staal"] = some best ∧
      (∀ x ∈ (["Hout", "Houten kozijn", "Staal"] : List String),
        candScore "hout" x ≤ candScore "hout" best) ∧
      (∀ x ∈ l₁, candScore "hout" x < candScore "hout" best)) ∧
    candScore "hout" "Hout" = 10 ∧
    candScore "hout" "Houten kozijn" = 5 ∧
    candScore "hout" "Staal" = 0 ∧
    find_closest_material "hout" ["Hout", "Houten kozijn", "Staal"] = some "Hout" :=
  matcher_first_strict_max "hout" ["Hout", "Houten kozijn", "Staal"] (by decide)

/-- C6: the matcher returns an explicit no-match (`none`) on an empty
candidate list, and falls back to the first candidate when no candidate
scores above zero. -/
theorem matcher_empty_and_zero_fallback :
    (∀ naam, find_closest_material naam [] = none) ∧
    (∀ naam m rest, (∀ x ∈ m :: rest, candScore naam x = 0) →
      find_closest_material naam (m :: rest) = some m) := by
  constructor
  · intro naam; rfl
  · intro naam m rest hall
    unfold find_closest_material
    rw [if_neg (by simp),
      bestLoop_of_le (candScore naam) (m :: rest) none 0
        (fun x hx => le_of_eq (hall x hx))]
    rfl

/-- Witness for `matcher_empty_and_zero_fallback`: all-zero scores fall
back to the first candidate, and the empty list yields no match. -/
theorem matcher_empty_and_zero_fallback_witness :
    find_closest_material "hout" ["Staal", "Glas"] = some "Staal" ∧
    find_closest_material "hout" [] = none :=
  ⟨matcher_empty_and_zero_fallback.2 "hout" "Staal" ["Glas"] (by decide),
   matcher_empty_and_zero_fallback.1 "hout"⟩

/-! ### Store lemmas -/

theorem tableGet_tableSet_self (t : Table) (k : String) (v : List String) :
    tableGet (tableSet t k v) k = some v := by
  induction t with
  | nil => simp [tableSet, tableGet, List.lookup]
  | cons p rest ih =>
      obtain ⟨k', v'⟩ := p
      by_cases h : k' = k
      · simp [tableSet, tableGet, List.lookup, h]
      · have hne : (k == k') = false := beq_eq_false_iff_ne.mpr (Ne.symm h)
        simp only [tableSet, beq_iff_eq, if_neg h]
        simpa [tableGet, List.lookup, hne] using ih

/-- C9: `get_kenmerken` / `get_toepassingen` are total, return the empty
list for an unknown name, and otherwise a sorted copy (same members) of
the stored collection. -/
theorem getters_total_sorted (st : Store) (naam : String) :
    (tableGet st.kenmerken naam = none → get_kenmerken st naam = []) ∧
    (tableGet st.toepassingen naam = none → get_toepassingen st naam = []) ∧
    List.Sorted (fun a b : String => a.data ≤ b.data) (get_kenmerken st naam) ∧
    List.Sorted (fun a b : String => a.data ≤ b.data) (get_toepassingen st naam) ∧
    (∀ x, x ∈ get_kenmerken st naam ↔ x ∈ (tableGet st.kenmerken naam).getD []) ∧
    (∀ x, x ∈ get_toepassingen st naam ↔ x ∈ (tableGet st.toepassingen naam).getD []) := by
  refine ⟨?_, ?_, sortStrings_sorted _, sortStrings_sorted _,
    fun x => sortStrings_mem, fun x => sortStrings_mem⟩
  · intro h; simp [get_kenmerken, h]; rfl
  · intro h; simp [get_toepassingen, h]; rfl

/-- Witness for `getters_total_sorted` on a one-name store and an unknown
name. -/
theorem getters_total_sorted_witness :
    (tableGet (Store.mk ["beton"] [("beton", ["ntb", "generiek"])]
        [("beton", ["wand"])] [] [] []).kenmerken "staal" = none →
      get_kenmerken (Store.mk ["beton"] [("beton", ["ntb", "generiek"])]
        [("beton", ["wand"])] [] [] []) "staal" = []) ∧
    (tableGet (Store.mk ["beton"] [("beton", ["ntb", "generiek"])]
        [("beton", ["wand"])] [] [] []).toepassingen "staal" = none →
      get_toepassingen (Store.mk ["beton"] [("beton", ["ntb", "generiek"])]
        [("beton", ["wand"])] [] [] []) "staal" = []) ∧
    List.Sorted (fun a b : String => a.data ≤ b.data)
      (get_kenmerken (Store.mk ["beton"] [("beton", ["ntb", "generiek"])]
        [("beton", ["wand"])] [] [] []) "staal") ∧
    List.Sorted (fun a b : String => a.data ≤ b.data)
      (get_toepassingen (Store.mk ["beton"] [("beton", ["ntb", "generiek"])]
        [("beton", ["wand"])] [] [] []) "staal") ∧
    (∀ x, x ∈ get_kenmerken (Store.mk ["beton"] [("beton", ["ntb", "generiek"])]
        [("beton", ["wand"])] [] [] []) "staal" ↔
      x ∈ (tableGet (Store.mk ["beton"] [("beton", ["ntb", "generiek"])]
        [("beton", ["wand"])] [] [] []).kenmerken "staal").getD []) ∧
    (∀ x, x ∈ get_toepassingen (Store.mk ["beton"] [("beton", ["ntb", "generiek"])]
        [("beton", ["wand"])] [] [] []) "staal" ↔
      x ∈ (tableGet (Store.mk ["beton"] [("beton", ["ntb", "generiek"])]
        [("beton", ["wand"])] [] [] []).toepassingen "staal").getD []) :=
  getters_total_sorted
    (Store.mk ["beton"] [("beton", ["ntb", "generiek"])] [("beton", ["wand"])] [] [] []) "staal"

/-- Result of a successful `add_naam`: name appended, both sub-tables
seeded with `["generiek", "ntb"]`, all three files rewritten in sorted
form. -/
theorem add_naam_first_eq (st : Store) (raw : String)
    (hval : normName raw ≠ "") (hfresh : normName raw ∉ st.namen) :
    add_naam st raw =
      (Store.mk (st.namen ++ [normName raw])
        (tableSet st.kenmerken (normName raw) ["generiek", "ntb"])
        (tableSet st.toepassingen (normName raw) ["generiek", "ntb"])
        (sortStrings (st.namen ++ [normName raw]))
        (sortTable (tableSet st.kenmerken (normName raw) ["generiek", "ntb"]))
        (sortTable (tableSet st.toepassingen (normName raw) ["generiek", "ntb"])), true) := by
  simp [add_naam, if_pos (And.intro hval hfresh), save_namen, save_kenmerken, save_toepassingen]

/-- A rejected `add_naam` is a strict no-op. -/
theorem add_naam_fail_eq (st : Store) (raw : String)
    (h : ¬ (normName raw ≠ "" ∧ normName raw ∉ st.namen)) :
    add_naam st raw = (st, false) := by
  simp only [add_naam]
  rw [if_neg h]

/-- C4: for a valid fresh name, `add_naam` succeeds and a second call with
any casing variant of it fails without mutation; after the first call both
sub-tables for the name hold exactly `["generiek", "ntb"]` and all three
files hold the sorted in-memory tables. -/
theorem add_naam_twice (st : Store) (raw raw2 : String)
    (hval : normName raw ≠ "") (hfresh : normName raw ∉ st.namen)
    (hsame : normName raw2 = normName raw) :
    (add_naam st raw).2 = true ∧
    (add_naam (add_naam st raw).1 raw2).2 = false ∧
    (add_naam (add_naam st raw).1 raw2).1 = (add_naam st raw).1 ∧
    tableGet (add_naam st raw).1.kenmerken (normName raw) = some ["generiek", "ntb"] ∧
    tableGet (add_naam st raw).1.toepassingen (normName raw) = some ["generiek", "ntb"] ∧
    (add_naam st raw).1.fnamen = sortStrings (add_naam st raw).1.namen ∧
    (add_naam st raw).1.fkenmerken = sortTable (add_naam st raw).1.kenmerken ∧
    (add_naam st raw).1.ftoepassingen = sortTable (add_naam st raw).1.toepassingen := by
  have h1 := add_naam_first_eq st raw hval hfresh
  rw [h1]
  have hmem : normName raw2 ∈ st.namen ++ [normName raw] := by rw [hsame]; simp
  have h2 := add_naam_fail_eq
    (Store.mk (st.namen ++ [normName raw])
      (tableSet st.kenmerken (normName raw) ["generiek", "ntb"])
      (tableSet st.toepassingen (normName raw) ["generiek", "ntb"])
      (sortStrings (st.namen ++ [normName raw]))
      (sortTable (tableSet st.kenmerken (normName raw) ["generiek", "ntb"]))
      (sortTable (tableSet st.toepassingen (normName raw) ["generiek", "ntb"])))
    raw2 (fun h => h.2 hmem)
  rw [h2]
  exact ⟨rfl, rfl, rfl, tableGet_tableSet_self _ _ _, tableGet_tableSet_self _ _ _,
    rfl, rfl, rfl⟩

/-- Witness for `add_naam_twice`: adding "Beton" then "BETON" to an empty
store. -/
theorem add_naam_twice_witness :
    (add_naam (Store.mk [] [] [] [] [] []) "Beton").2 = true ∧
    (add_naam (add_naam (Store.mk [] [] [] [] [] []) "Beton").1 "BETON").2 = false ∧
    (add_naam (add_naam (Store.mk [] [] [] [] [] []) "Beton").1 "BETON").1 =
      (add_naam (Store.mk [] [] [] [] [] []) "Beton").1 ∧
    tableGet (add_naam (Store.mk [] [] [] [] [] []) "Beton").1.kenmerken (normName "Beton") =
      some ["generiek", "ntb"] ∧
    tableGet (add_naam (Store.mk [] [] [] [] [] []) "Beton").1.toepassingen (normName "Beton") =
      some ["generiek", "ntb"] ∧
    (add_naam (Store.mk [] [] [] [] [] []) "Beton").1.fnamen =
      sortStrings (add_naam (Store.mk [] [] [] [] [] []) "Beton").1.namen ∧
    (add_naam (Store.mk [] [] [] [] [] []) "Beton").1.fkenmerken =
      sortTable (add_naam (Store.mk [] [] [] [] [] []) "Beton").1.kenmerken ∧
    (add_naam (Store.mk [] [] [] [] [] []) "Beton").1.ftoepassingen =
      sortTable (add_naam (Store.mk [] [] [] [] [] []) "Beton").1.toepassingen :=
  add_naam_twice (Store.mk [] [] [] [] [] []) "Beton" "BETON"
    (by decide) (by decide) (by decide)


/-- C8: `add_kenmerk` / `add_toepassing` normalize the raw input and are
strict no-ops (no table mutation, no file write) when the owning name is
unknown, the normalized input is empty, or the value is already present;
on success they append the value and rewrite only the affected file. -/
theorem add_sub_entries_spec (st : Store) (naam raw : String) :
    (tableGet st.kenmerken naam = none → add_kenmerk st naam raw = (st, false)) ∧
    (normName raw = "" → add_kenmerk st naam raw = (st, false)) ∧
    (∀ cur, tableGet st.kenmerken naam = some cur → normName raw ∈ cur →
      add_kenmerk st naam raw = (st, false)) ∧
    (∀ cur, tableGet st.kenmerken naam = some cur → normName raw ≠ "" →
      normName raw ∉ cur →
      add_kenmerk st naam raw =
        ({ st with
            kenmerken := tableSet st.kenmerken naam (cur ++ [normName raw])
            fkenmerken := sortTable (tableSet st.kenmerken naam (cur ++ [normName raw])) },
         true)) ∧
    (tableGet st.toepassingen naam = none → add_toepassing st naam raw = (st, false)) ∧
    (normName raw = "" → add_toepassing st naam raw = (st, false)) ∧
    (∀ cur, tableGet st.toepassingen naam = some cur → normName raw ∈ cur →
      add_toepassing st naam raw = (st, false)) ∧
    (∀ cur, tableGet st.toepassingen naam = some cur → normName raw ≠ "" →
      normName raw ∉ cur →
      add_toepassing st naam raw =
        ({ st with
            toepassingen := tableSet st.toepassingen naam (cur ++ [normName raw])
            ftoepassingen := sortTable (tableSet st.toepassingen naam (cur ++ [normName raw])) },
         true)) := by
  refine ⟨?_, ?_, ?_, ?_, ?_, ?_, ?_, ?_⟩
  · intro h; simp only [add_kenmerk, h]
  · intro h
    simp only [add_kenmerk]
    cases htg : tableGet st.kenmerken naam with
    | none => rfl
    | some cur => simp [h]
  · intro cur hcur hmem
    simp only [add_kenmerk, hcur]
    by_cases hne : normName raw ≠ ""
    · rw [if_pos hne, if_neg (not_not_intro hmem)]
    · rw [if_neg hne]
  · intro cur hcur hne hnot
    simp only [add_kenmerk, hcur]
    rw [if_pos hne, if_pos hnot]
    simp [save_kenmerken]
  · intro h; simp only [add_toepassing, h]
  · intro h
    simp only [add_toepassing]
    cases htg : tableGet st.toepassingen naam with
    | none => rfl
    | some cur => simp [h]
  · intro cur hcur hmem
    simp only [add_toepassing, hcur]
    by_cases hne : normName raw ≠ ""
    · rw [if_pos hne, if_neg (not_not_intro hmem)]
    · rw [if_neg hne]
  · intro cur hcur hne hnot
    simp only [add_toepassing, hcur]
    rw [if_pos hne, if_pos hnot]
    simp [save_toepassingen]


/-- Witness for `add_sub_entries_spec`: a successful `add_kenmerk` on a
seeded store and a rejected one for an unknown name. -/
theorem add_sub_entries_spec_witness :
    add_kenmerk
      (Store.mk ["beton"] [("beton", ["generiek", "ntb"])] [("beton", ["generiek", "ntb"])]
        [] [] []) "beton" " Wand " =
      ({ Store.mk ["beton"] [("beton", ["generiek", "ntb"])] [("beton", ["generiek", "ntb"])]
          [] [] [] with
          kenmerken := tableSet
            (Store.mk ["beton"] [("beton", ["generiek", "ntb"])] [("beton", ["generiek", "ntb"])]
              [] [] []).kenmerken "beton" (["generiek", "ntb"] ++ [normName " Wand "])
          fkenmerken := sortTable (tableSet
            (Store.mk ["beton"] [("beton", ["generiek", "ntb"])] [("beton", ["generiek", "ntb"])]
              [] [] []).kenmerken "beton" (["generiek", "ntb"] ++ [normName " Wand "])) },
       true) ∧
    add_toepassing
      (Store.mk ["beton"] [("beton", ["generiek", "ntb"])] [("beton", ["generiek", "ntb"])]
        [] [] []) "staal" "wand" =
      (Store.mk ["beton"] [("beton", ["generiek", "ntb"])] [("beton", ["generiek", "ntb"])]
        [] [] [], false) :=
  ⟨(add_sub_entries_spec
      (Store.mk ["beton"] [("beton", ["generiek", "ntb"])] [("beton", ["generiek", "ntb"])]
        [] [] []) "beton" " Wand ").2.2.2.1 ["generiek", "ntb"] (by decide) (by decide) (by decide),
   (add_sub_entries_spec
      (Store.mk ["beton"] [("beton", ["generiek", "ntb"])] [("beton", ["generiek", "ntb"])]
        [] [] []) "staal" "wand").2.2.2.2.1 (by decide)⟩


theorem tableGet_eq_none_iff (t : Table) (k : String) :
    tableGet t k = none ↔ k ∉ tableKeys t := by
  induction t with
  | nil => simp [tableGet, tableKeys, List.lookup]
  | cons p rest ih =>
      obtain ⟨k', v'⟩ := p
      by_cases h : k = k'
      · simp [tableGet, tableKeys, List.lookup, h]
      · have hne : (k == k') = false := beq_eq_false_iff_ne.mpr h
        simp only [tableGet, tableKeys, List.lookup, hne, List.map_cons, List.mem_cons]
        simpa [tableGet, tableKeys, h] using ih

theorem lookup_map_keys (ks : List String) (f : String → List String) (k : String) :
    List.lookup k (ks.map (fun x => (x, f x))) = if k ∈ ks then some (f k) else none := by
  induction ks with
  | nil => simp [List.lookup]
  | cons a ks ih =>
      by_cases h : k = a
      · simp [List.lookup, h]
      · have hne : (k == a) = false := beq_eq_false_iff_ne.mpr h
        simp [List.lookup, hne, ih, h]

theorem tableGet_sortTable (t : Table) (k : String) :
    tableGet (sortTable t) k =
      if k ∈ tableKeys t then some (sortStrings ((tableGet t k).getD [])) else none := by
  unfold sortTable tableGet
  rw [lookup_map_keys]
  by_cases h : k ∈ tableKeys t
  · rw [if_pos (sortStrings_mem.mpr h), if_pos h]
  · rw [if_neg (fun hc => h (sortStrings_mem.mp hc)), if_neg h]

/-- C7: every save writes the collections in sorted order and is
determined by the collections as sets (insertion order is irrelevant), and
reloading a saved table yields collections with exactly the members of the
saved ones. -/
theorem save_deterministic_roundtrip
    (l l₂ : List String) (t t₂ : Table)
    (hl : List.Perm l l₂)
    (hkeys : List.Perm (tableKeys t) (tableKeys t₂))
    (hvals : ∀ k, List.Perm ((tableGet t k).getD []) ((tableGet t₂ k).getD [])) :
    sortStrings l = sortStrings l₂ ∧
    sortTable t = sortTable t₂ ∧
    List.Sorted (fun a b : String => a.data ≤ b.data) (sortStrings l) ∧
    List.Sorted (fun a b : String => a.data ≤ b.data) (tableKeys (sortTable t)) ∧
    (∀ p ∈ sortTable t, List.Sorted (fun a b : String => a.data ≤ b.data) p.2) ∧
    (∀ x, x ∈ sortStrings l ↔ x ∈ l) ∧
    (∀ k, tableGet (sortTable t) k =
      if k ∈ tableKeys t then some (sortStrings ((tableGet t k).getD [])) else none) ∧
    (∀ k x, x ∈ (tableGet (sortTable t) k).getD [] ↔ x ∈ (tableGet t k).getD []) := by
  refine ⟨sortStrings_eq_of_perm hl, ?_, sortStrings_sorted l, ?_, ?_, fun x => sortStrings_mem,
    tableGet_sortTable t, ?_⟩
  · unfold sortTable
    rw [sortStrings_eq_of_perm hkeys]
    exact List.map_congr_left (fun k _ => by rw [sortStrings_eq_of_perm (hvals k)])
  · unfold sortTable tableKeys
    rw [List.map_map]
    have hcomp : (Prod.fst ∘ fun k => (k, sortStrings ((tableGet t k).getD []))) =
        fun k : String => k := rfl
    rw [hcomp]
    simpa using sortStrings_sorted (List.map Prod.fst t)
  · intro p hp
    obtain ⟨k, _, rfl⟩ := List.mem_map.mp hp
    exact sortStrings_sorted _
  · intro k x
    rw [tableGet_sortTable]
    by_cases h : k ∈ tableKeys t
    · rw [if_pos h]
      exact sortStrings_mem
    · rw [if_neg h, (tableGet_eq_none_iff t k).mpr h]

/-- C5 counterexample: with a well-formed names file, a malformed
kenmerken file and a well-formed toepassingen file, `load_data` leaves the
toepassingen collection empty even though its file was well-formed — the
claimed per-table degradation fails because one `try` spans all three
reads. -/
theorem load_data_not_per_table :
    load_data (.ok ["beton"]) .malformed (.ok [("beton", ["wand"])]) =
      (["beton"], [], []) ∧
    ([] : Table) ≠ [("beton", ["wand"])] :=
  ⟨rfl, by decide⟩

/-- C5 amended: a missing file yields an empty collection for its table
and a malformed file is logged and non-fatal, but it aborts the rest of
`load_data`: tables read before the malformed one keep their loaded
contents, while the malformed table and every table after it stay empty. -/
theorem load_data_degradation (fn : FileContent (List String)) (fk ft : FileContent Table) :
    (fn = .missing → (load_data fn fk ft).1 = []) ∧
    (fk = .missing → (load_data fn fk ft).2.1 = []) ∧
    (ft = .missing → (load_data fn fk ft).2.2 = []) ∧
    (∀ l, fn = .ok l → (load_data fn fk ft).1 = l) ∧
    (∀ t, fk = .ok t → fn ≠ .malformed → (load_data fn fk ft).2.1 = t) ∧
    (∀ t, ft = .ok t → fn ≠ .malformed → fk ≠ .malformed → (load_data fn fk ft).2.2 = t) ∧
    (fn = .malformed → load_data fn fk ft = ([], [], [])) ∧
    (fk = .malformed → (load_data fn fk ft).2.1 = [] ∧ (load_data fn fk ft).2.2 = []) ∧
    (ft = .malformed → (load_data fn fk ft).2.2 = []) := by
  cases fn <;> cases fk <;> cases ft <;> simp [load_data]


/-- Witness for `save_deterministic_roundtrip` on concrete collections. -/
theorem save_deterministic_roundtrip_witness :
    sortStrings ["b", "a"] = sortStrings ["a", "b"] ∧
    sortTable [("x", ["2", "1"])] = sortTable [("x", ["2", "1"])] ∧
    List.Sorted (fun a b : String => a.data ≤ b.data) (sortStrings ["b", "a"]) ∧
    List.Sorted (fun a b : String => a.data ≤ b.data)
      (tableKeys (sortTable [("x", ["2", "1"])])) ∧
    (∀ p ∈ sortTable [("x", ["2", "1"])],
      List.Sorted (fun a b : String => a.data ≤ b.data) p.2) ∧
    (∀ x, x ∈ sortStrings ["b", "a"] ↔ x ∈ (["b", "a"] : List String)) ∧
    (∀ k, tableGet (sortTable [("x", ["2", "1"])]) k =
      if k ∈ tableKeys ([("x", ["2", "1"])] : Table) then
        some (sortStrings ((tableGet [("x", ["2", "1"])] k).getD [])) else none) ∧
    (∀ k x, x ∈ (tableGet (sortTable [("x", ["2", "1"])]) k).getD [] ↔
      x ∈ (tableGet [("x", ["2", "1"])] k).getD []) :=
  save_deterministic_roundtrip ["b", "a"] ["a", "b"] [("x", ["2", "1"])] [("x", ["2", "1"])]
    (by decide) (List.Perm.refl _) (fun _ => List.Perm.refl _)

/-- Witness for `load_data_degradation`: names and kenmerken files load,
the missing toepassingen file degrades to an empty table. -/
theorem load_data_degradation_witness :
    (load_data (FileContent.ok ["beton"]) (FileContent.ok [("beton", ["generiek"])])
      FileContent.missing).2.2 = [] ∧
    (load_data (FileContent.ok ["beton"]) (FileContent.ok [("beton", ["generiek"])])
      FileContent.missing).1 = ["beton"] :=
  ⟨(load_data_degradation (FileContent.ok ["beton"]) (FileContent.ok [("beton", ["generiek"])])
      FileContent.missing).2.2.1 rfl,
   (load_data_degradation (FileContent.ok ["beton"]) (FileContent.ok [("beton", ["generiek"])])
      FileContent.missing).2.2.2.1 ["beton"] rfl⟩


/-- Python `str.startswith` via the code-point sequence. -/
def startsWithB (s pre : String) : Bool := pre.data.isPrefixOf s.data

/-- Normalization of the free-text field in `_update_preview`
(script.py line 565): `strip()`, `lower()`, then spaces to underscores. -/
def normEigen (s : String) : String :=
  String.mk (((stripChars s.data).map Char.toLower).map (fun c => if c == ' ' then '_' else c))

/-- The `parts` list assembled by `_update_preview` (script.py lines
555-567): one entry per combobox with a selection, plus the normalized
free text when non-empty. -/
def previewParts (naam kenmerk toepassing : Option String) (eigen : String) : List String :=
  (match naam with | some n => [n] | none => []) ++
  (match kenmerk with | some k => [k] | none => []) ++
  (match toepassing with | some t => [t] | none => []) ++
  (if normEigen eigen ≠ "" then [normEigen eigen] else [])

/-- The preview label text set by `_update_preview` (script.py lines
569-575): the `_`-join when at least three parts are present, else the
placeholder. -/
def previewText (naam kenmerk toepassing : Option String) (eigen : String) : String :=
  let parts := previewParts naam kenmerk toepassing eigen
  if 3 ≤ parts.length then String.intercalate "_" parts
  else "(selecteer naam, kenmerk en toepassing)"

/-- `_get_generated_name` (script.py lines 577-583): the preview text when
non-empty and not a placeholder (does not start with a parenthesis). -/
def get_generated_name (text : String) : Option String :=
  if text ≠ "" ∧ startsWithB text "(" = false then some text else none

/-- C2 counterexample: with a name and an attribute selected, no
application selected, and a free-text suffix "x", the gate passes and a
generated name is produced — contradicting the claim that a missing
required segment always yields an incomplete result. -/
theorem preview_gate_counterexample :
    previewText (some "beton") (some "generiek") none "x" = "beton_generiek_x" ∧
    get_generated_name (previewText (some "beton") (some "generiek") none "x") =
      some "beton_generiek_x" ∧
    (none : Option String).isSome = false := by
  refine ⟨by decide, by decide, rfl⟩

/-- C2 amended: the completeness gate counts parts, where a non-empty
normalized free-text suffix is a part like the selected segments: fewer
than three parts shows the placeholder and produces no generated name;
three or more parts (which all three selections guarantee, but which two
selections plus a suffix also reach) shows the joined name. -/
theorem preview_gate_spec (naam kenmerk toepassing : Option String) (eigen : String) :
    ((previewParts naam kenmerk toepassing eigen).length < 3 →
      previewText naam kenmerk toepassing eigen = "(selecteer naam, kenmerk en toepassing)" ∧
      get_generated_name (previewText naam kenmerk toepassing eigen) = none) ∧
    (3 ≤ (previewParts naam kenmerk toepassing eigen).length →
      previewText naam kenmerk toepassing eigen =
        String.intercalate "_" (previewParts naam kenmerk toepassing eigen)) ∧
    (naam.isSome → kenmerk.isSome → toepassing.isSome →
      3 ≤ (previewParts naam kenmerk toepassing eigen).length) := by
  refine ⟨?_, ?_, ?_⟩
  · intro h
    have hn : ¬ 3 ≤ (previewParts naam kenmerk toepassing eigen).length := Nat.not_le.mpr h
    constructor
    · simp only [previewText]
      rw [if_neg hn]
    · simp only [previewText]
      rw [if_neg hn]
      decide
  · intro h
    simp only [previewText]
    rw [if_pos h]
  · intro h1 h2 h3
    rcases naam with _ | n
    · simp at h1
    rcases kenmerk with _ | k
    · simp at h2
    rcases toepassing with _ | t
    · simp at h3
    by_cases he : normEigen eigen ≠ ""
    · simp [previewParts, he]
    · simp [previewParts, he]

/-- Witness for `preview_gate_spec`: one selected segment alone is
incomplete; a full selection passes the gate. -/
theorem preview_gate_spec_witness :
    get_generated_name (previewText (some "beton") none none "") = none ∧
    3 ≤ (previewParts (some "beton") (some "generiek") (some "wand") "").length ∧
    previewText (some "beton") (some "generiek") (some "wand") "" =
      String.intercalate "_" (previewParts (some "beton") (some "generiek") (some "wand") "") :=
  ⟨((preview_gate_spec (some "beton") none none "").1 (by decide)).2,
   (preview_gate_spec (some "beton") (some "generiek") (some "wand") "").2.2 rfl rfl rfl,
   (preview_gate_spec (some "beton") (some "generiek") (some "wand") "").2.1 (by decide)⟩



/-! ### Color conversion (`hex_to_revit_color` / `revit_color_to_hex`,
script.py lines 85-95)

A Revit `Color` is modelled as its `(Red, Green, Blue)` byte triple.
`int(s, 16)` is modelled on plain hexadecimal-digit strings (the only
shape the two-character slices of a color string can take); the other
forms Python would accept (signs, whitespace, `0x` prefixes) are not
reachable here and are modelled as failures, and a failing `int` raise is
modelled as `none`. -/

/-- Value of one hexadecimal digit (either case). -/
def hexVal (c : Char) : Nat :=
  if c.isDigit then c.toNat - '0'.toNat
  else if 'a' ≤ c ∧ c ≤ 'f' then c.toNat - 'a'.toNat + 10
  else if 'A' ≤ c ∧ c ≤ 'F' then c.toNat - 'A'.toNat + 10
  else 0

def isHexDigitB (c : Char) : Bool :=
  c.isDigit || ('a' ≤ c && c ≤ 'f') || ('A' ≤ c && c ≤ 'F')

/-- `int(s, 16)` on a character slice. -/
def parseHex (cs : List Char) : Option Nat :=
  if cs ≠ [] ∧ cs.all isHexDigitB then
    some (cs.foldl (fun acc c => 16 * acc + hexVal c) 0)
  else none

/-- `hex_to_revit_color` (script.py lines 85-91): strip leading `#`
characters, parse the three two-character slices, build the color. -/
def hex_to_revit_color (s : String) : Option (Nat × Nat × Nat) :=
  let cs := s.data.dropWhile (fun c => c == '#')
  match parseHex (cs.take 2), parseHex ((cs.drop 2).take 2), parseHex ((cs.drop 4).take 2) with
  | some r, some g, some b => some (r, g, b)
  | _, _, _ => none

/-- Uppercase hexadecimal digit of a value below 16 (`{:02X}`). -/
def hexDigitU (n : Nat) : Char :=
  if n < 10 then Char.ofNat ('0'.toNat + n) else Char.ofNat ('A'.toNat + n - 10)

/-- Uppercase hexadecimal digits of a number (most significant first). -/
def hexChars (n : Nat) : List Char :=
  if n < 16 then [hexDigitU n]
  else hexChars (n / 16) ++ [hexDigitU (n % 16)]
termination_by n
decreasing_by exact Nat.div_lt_self (by omega) (by omega)

/-- Python `"{:02X}".format(n)`: uppercase hex, zero-padded to width 2. -/
def fmt02X (n : Nat) : List Char :=
  List.replicate (2 - (hexChars n).length) '0' ++ hexChars n

/-- `revit_color_to_hex` (script.py lines 93-95). -/
def revit_color_to_hex (c : Nat × Nat × Nat) : String :=
  String.mk ('#' :: (fmt02X c.1 ++ fmt02X c.2.1 ++ fmt02X c.2.2))

/-- The sixteen uppercase hexadecimal digits. -/
def HEXU : List Char := "0123456789ABCDEF".data

theorem hexVal_lt_of_mem {c : Char} (h : c ∈ HEXU) : hexVal c < 16 := by
  fin_cases h <;> decide

theorem isHexDigitB_of_mem {c : Char} (h : c ∈ HEXU) : isHexDigitB c = true := by
  fin_cases h <;> decide

theorem hexDigitU_hexVal {c : Char} (h : c ∈ HEXU) : hexDigitU (hexVal c) = c := by
  fin_cases h <;> decide

theorem not_hash_of_mem {c : Char} (h : c ∈ HEXU) : (c == '#') = false := by
  fin_cases h <;> decide

theorem parseHex_pair (c d : Char) (hc : isHexDigitB c = true) (hd : isHexDigitB d = true) :
    parseHex [c, d] = some (16 * hexVal c + hexVal d) := by
  simp [parseHex, hc, hd, List.foldl]

theorem hexChars_lt (b : Nat) (hb : b < 16) : hexChars b = [hexDigitU b] := by
  rw [hexChars, if_pos hb]

theorem hexChars_two (a b : Nat) (ha : a < 16) (hb : b < 16) (hpos : 0 < a) :
    hexChars (16 * a + b) = [hexDigitU a, hexDigitU b] := by
  rw [hexChars, if_neg (by omega)]
  have hdiv : (16 * a + b) / 16 = a := by omega
  have hmod : (16 * a + b) % 16 = b := by omega
  rw [hdiv, hmod, hexChars_lt a ha]
  rfl

theorem fmt02X_pair (a b : Nat) (ha : a < 16) (hb : b < 16) :
    fmt02X (16 * a + b) = [hexDigitU a, hexDigitU b] := by
  rcases Nat.eq_zero_or_pos a with rfl | hpos
  · have h16 : 16 * 0 + b = b := by omega
    rw [fmt02X, h16, hexChars_lt b hb]
    have h0 : hexDigitU 0 = '0' := by decide
    simp [h0]
  · rw [fmt02X, hexChars_two a b ha hb hpos]
    rfl


/-- C10: for any six uppercase hexadecimal digits, `hex_to_revit_color`
parses `#RRGGBB` into the byte triple, `revit_color_to_hex` maps that
triple back to the original string, and the leading `#` is optional. -/
theorem hex_color_roundtrip (c1 c2 c3 c4 c5 c6 : Char)
    (h1 : c1 ∈ HEXU) (h2 : c2 ∈ HEXU) (h3 : c3 ∈ HEXU)
    (h4 : c4 ∈ HEXU) (h5 : c5 ∈ HEXU) (h6 : c6 ∈ HEXU) :
    hex_to_revit_color (String.mk ['#', c1, c2, c3, c4, c5, c6]) =
      some (16 * hexVal c1 + hexVal c2, 16 * hexVal c3 + hexVal c4,
        16 * hexVal c5 + hexVal c6) ∧
    revit_color_to_hex
      (16 * hexVal c1 + hexVal c2, 16 * hexVal c3 + hexVal c4, 16 * hexVal c5 + hexVal c6) =
      String.mk ['#', c1, c2, c3, c4, c5, c6] ∧
    hex_to_revit_color (String.mk [c1, c2, c3, c4, c5, c6]) =
      hex_to_revit_color (String.mk ['#', c1, c2, c3, c4, c5, c6]) := by
  have hdrop : (String.mk ['#', c1, c2, c3, c4, c5, c6]).data.dropWhile (fun c => c == '#') =
      [c1, c2, c3, c4, c5, c6] := by
    show List.dropWhile _ ('#' :: [c1, c2, c3, c4, c5, c6]) = _
    have hp : (('#' : Char) == '#') = true := rfl
    rw [List.dropWhile_cons, if_pos hp, List.dropWhile_cons,
      if_neg (by simp [not_hash_of_mem h1])]
  have hdrop2 : (String.mk [c1, c2, c3, c4, c5, c6]).data.dropWhile (fun c => c == '#') =
      [c1, c2, c3, c4, c5, c6] := by
    show List.dropWhile _ (c1 :: [c2, c3, c4, c5, c6]) = _
    rw [List.dropWhile_cons, if_neg (by simp [not_hash_of_mem h1])]
  refine ⟨?_, ?_, ?_⟩
  · simp only [hex_to_revit_color]
    rw [hdrop,
      show ([c1, c2, c3, c4, c5, c6] : List Char).take 2 = [c1, c2] from rfl,
      show (([c1, c2, c3, c4, c5, c6] : List Char).drop 2).take 2 = [c3, c4] from rfl,
      show (([c1, c2, c3, c4, c5, c6] : List Char).drop 4).take 2 = [c5, c6] from rfl,
      parseHex_pair c1 c2 (isHexDigitB_of_mem h1) (isHexDigitB_of_mem h2),
      parseHex_pair c3 c4 (isHexDigitB_of_mem h3) (isHexDigitB_of_mem h4),
      parseHex_pair c5 c6 (isHexDigitB_of_mem h5) (isHexDigitB_of_mem h6)]
  · show String.mk ('#' :: (fmt02X (16 * hexVal c1 + hexVal c2) ++
      fmt02X (16 * hexVal c3 + hexVal c4) ++ fmt02X (16 * hexVal c5 + hexVal c6))) = _
    rw [fmt02X_pair _ _ (hexVal_lt_of_mem h1) (hexVal_lt_of_mem h2),
      fmt02X_pair _ _ (hexVal_lt_of_mem h3) (hexVal_lt_of_mem h4),
      fmt02X_pair _ _ (hexVal_lt_of_mem h5) (hexVal_lt_of_mem h6),
      hexDigitU_hexVal h1, hexDigitU_hexVal h2, hexDigitU_hexVal h3,
      hexDigitU_hexVal h4, hexDigitU_hexVal h5, hexDigitU_hexVal h6]
    simp
  · simp only [hex_to_revit_color]
    rw [hdrop, hdrop2]

/-- Witness for `hex_color_roundtrip` at `#0A2B3C`. -/
theorem hex_color_roundtrip_witness :
    hex_to_revit_color (String.mk ['#', '0', 'A', '2', 'B', '3', 'C']) =
      some (16 * hexVal '0' + hexVal 'A', 16 * hexVal '2' + hexVal 'B',
        16 * hexVal '3' + hexVal 'C') ∧
    revit_color_to_hex
      (16 * hexVal '0' + hexVal 'A', 16 * hexVal '2' + hexVal 'B',
        16 * hexVal '3' + hexVal 'C') =
      String.mk ['#', '0', 'A', '2', 'B', '3', 'C'] ∧
    hex_to_revit_color (String.mk ['0', 'A', '2', 'B', '3', 'C']) =
      hex_to_revit_color (String.mk ['#', '0', 'A', '2', 'B', '3', 'C']) :=
  hex_color_roundtrip '0' 'A' '2' 'B' '3' 'C'
    (by decide) (by decide) (by decide) (by decide) (by decide) (by decide)



/-! ### Host document and material creation (`MateriaalHelper`,
`NAAKTGeneratorWindow._on_create` / `_apply_patterns`,
script.py lines 322-366 and 766-870)

A Revit material is modelled by its display name, its appearance-asset
reference and its eight presentation fields; the document is the material
list plus the number of appearance-asset elements. Host failures are
nondeterministic, so they are inputs: whether `Material.Duplicate`
throws, whether `AppearanceAssetElement.Duplicate` throws, and the index
of the first statement of `_apply_patterns` that throws (if any). The
`with Transaction` block is given snapshot semantics: `RollBack` (and an
escaping exception) restores the document seen at `Start`, `Commit`
publishes the mutated document. -/

structure RMaterial where
  name : String
  appearanceAssetId : Option Nat
  surfaceFgPatternId : Option Nat
  surfaceBgPatternId : Option Nat
  cutFgPatternId : Option Nat
  cutBgPatternId : Option Nat
  surfaceFgColor : Nat × Nat × Nat
  surfaceBgColor : Nat × Nat × Nat
  cutFgColor : Nat × Nat × Nat
  cutBgColor : Nat × Nat × Nat

structure HostDoc where
  materials : List RMaterial
  assetCount : Nat

/-- Nondeterministic host failures during one create action. -/
structure HostBehavior where
  dupRaises : Bool
  assetDupRaises : Bool
  applyRaiseAt : Option Nat

/-- The window state read by `_apply_patterns`: the resolved pattern ids
of the two combobox selections (`self.patterns.get(...)`), the four
colors (already converted from their hex fields), and the document's
solid-fill pattern id (`get_solid_pattern_id`, `none` for
`InvalidElementId`). -/
structure PatternConfig where
  surfaceFgPattern : Option Nat
  cutFgPattern : Option Nat
  solidPatternId : Option Nat
  surfaceFgColor : Nat × Nat × Nat
  surfaceBgColor : Nat × Nat × Nat
  cutFgColor : Nat × Nat × Nat
  cutBgColor : Nat × Nat × Nat

/-- `MateriaalHelper.material_exists` (script.py lines 322-328). -/
def material_exists (doc : HostDoc) (nm : String) : Bool :=
  doc.materials.any (fun m => m.name == nm)

/-- `MateriaalHelper.duplicate_material` (script.py lines 330-366): `none`
models both the explicit duplicate-name rejection and a caught
`Duplicate` exception; on success it yields the document's new
appearance-asset count and the new material (a copy of the source under
the new name, pointing at a freshly duplicated asset when the source had
one and that duplication did not throw — a caught asset failure keeps the
copied reference). -/
def duplicate_material (doc : HostDoc) (source : RMaterial) (newName : String)
    (hb : HostBehavior) : Option (Nat × RMaterial) :=
  if doc.materials.any (fun m => m.name == newName) then none
  else if hb.dupRaises then none
  else
    let copy := { source with name := newName }
    match source.appearanceAssetId, hb.assetDupRaises with
    | some _, false =>
        some (doc.assetCount + 1, { copy with appearanceAssetId := some doc.assetCount })
    | _, _ => some (doc.assetCount, copy)

/-- The eight field assignments of `_apply_patterns`
(script.py lines 836-865), in program order. -/
def applySteps (cfg : PatternConfig) : List (RMaterial → RMaterial) :=
  [fun m => match cfg.surfaceFgPattern with
    | some pid => { m with surfaceFgPatternId := some pid }
    | none => m,
   fun m => { m with surfaceFgColor := cfg.surfaceFgColor },
   fun m => { m with surfaceBgColor := cfg.surfaceBgColor },
   fun m => match cfg.solidPatternId with
    | some sid => { m with surfaceBgPatternId := some sid }
    | none => m,
   fun m => match cfg.cutFgPattern with
    | some pid => { m with cutFgPatternId := some pid }
    | none => m,
   fun m => { m with cutFgColor := cfg.cutFgColor },
   fun m => { m with cutBgColor := cfg.cutBgColor },
   fun m => match cfg.solidPatternId with
    | some sid => { m with cutBgPatternId := some sid }
    | none => m]

/-- `_apply_patterns` (script.py lines 833-870): runs the assignments in
order; an exception at step `k` (`applyRaiseAt`) skips the remaining
steps and is caught by the method's own `except`, so the partially
updated material is kept and nothing propagates to the caller. -/
def apply_patterns (cfg : PatternConfig) (raiseAt : Option Nat) (mat : RMaterial) : RMaterial :=
  ((applySteps cfg).take (raiseAt.getD 8)).foldl (fun m f => f m) mat

/-- Outcome of `_on_create` (script.py lines 766-831), one constructor per
user-visible exit. -/
inductive CreateResult where
  | invalidName
  | alreadyExists
  | noSource
  | cancelled
  | failedDup
  | created
deriving DecidableEq

/-- `_on_create` (script.py lines 766-831): validity check, existence
check, source resolution via the keyword matcher, confirmation, then the
transaction: a failed duplication hits `t.RollBack()` (document restored),
otherwise `_apply_patterns` runs (its exceptions are swallowed inside it)
and `t.Commit()` publishes the new material. -/
def on_create (doc : HostDoc) (newName? : Option String) (naakt : String)
    (cfg : PatternConfig) (hb : HostBehavior) (confirm : Bool) : HostDoc × CreateResult :=
  match newName? with
  | none => (doc, .invalidName)
  | some newName =>
    if material_exists doc newName then (doc, .alreadyExists)
    else
      match find_closest_material naakt (doc.materials.map RMaterial.name) with
      | none => (doc, .noSource)
      | some srcName =>
        match doc.materials.find? (fun m => m.name == srcName) with
        | none => (doc, .noSource)
        | some src =>
          if confirm then
            match duplicate_material doc src newName hb with
            | none => (doc, .failedDup)
            | some (ac, newMat) =>
                (HostDoc.mk (doc.materials ++ [apply_patterns cfg hb.applyRaiseAt newMat]) ac,
                 .created)
          else (doc, .cancelled)

theorem applySteps_preserve_name (cfg : PatternConfig) :
    ∀ f ∈ applySteps cfg, ∀ m : RMaterial, (f m).name = m.name := by
  intro f hf m
  simp only [applySteps, List.mem_cons, List.not_mem_nil, or_false] at hf
  rcases hf with rfl | rfl | rfl | rfl | rfl | rfl | rfl | rfl
  · cases cfg.surfaceFgPattern <;> rfl
  · rfl
  · rfl
  · cases cfg.solidPatternId <;> rfl
  · cases cfg.cutFgPattern <;> rfl
  · rfl
  · rfl
  · cases cfg.solidPatternId <;> rfl

theorem apply_patterns_name (cfg : PatternConfig) (raiseAt : Option Nat) (mat : RMaterial) :
    (apply_patterns cfg raiseAt mat).name = mat.name := by
  have key : ∀ fs : List (RMaterial → RMaterial),
      (∀ f ∈ fs, ∀ m : RMaterial, (f m).name = m.name) →
      ∀ m : RMaterial, (fs.foldl (fun m f => f m) m).name = m.name := by
    intro fs
    induction fs with
    | nil => intro _ m; rfl
    | cons f fs ih =>
        intro h m
        rw [List.foldl_cons, ih (fun g hg => h g (List.mem_cons_of_mem f hg)),
          h f (List.mem_cons_self f fs)]
  exact key _ (fun f hf => applySteps_preserve_name cfg f (List.take_subset _ _ hf)) mat

theorem duplicate_material_name (doc : HostDoc) (src : RMaterial) (newName : String)
    (hb : HostBehavior) (ac : Nat) (m : RMaterial)
    (h : duplicate_material doc src newName hb = some (ac, m)) : m.name = newName := by
  simp only [duplicate_material] at h
  by_cases h1 : doc.materials.any (fun mm => mm.name == newName) = true
  · rw [if_pos h1] at h; exact absurd h (by simp)
  · rw [if_neg h1] at h
    by_cases h2 : hb.dupRaises = true
    · rw [if_pos h2] at h; exact absurd h (by simp)
    · rw [if_neg h2] at h
      cases ha : src.appearanceAssetId with
      | none =>
          rw [ha] at h
          obtain ⟨-, rfl⟩ := Prod.mk.injEq .. ▸ Option.some.injEq .. ▸ h
          rfl
      | some aid =>
          rw [ha] at h
          cases hr : hb.assetDupRaises with
          | false =>
              rw [hr] at h
              obtain ⟨-, rfl⟩ := Prod.mk.injEq .. ▸ Option.some.injEq .. ▸ h
              rfl
          | true =>
              rw [hr] at h
              obtain ⟨-, rfl⟩ := Prod.mk.injEq .. ▸ Option.some.injEq .. ▸ h
              rfl


/-- Exhaustive outcomes of `_on_create` for a present name: every path
except `created` returns the document unchanged; `created` appends the
pattern-applied duplicate. -/
theorem on_create_cases (doc : HostDoc) (newName naakt : String)
    (cfg : PatternConfig) (hb : HostBehavior) (confirm : Bool) :
    on_create doc (some newName) naakt cfg hb confirm = (doc, .alreadyExists) ∨
    on_create doc (some newName) naakt cfg hb confirm = (doc, .noSource) ∨
    on_create doc (some newName) naakt cfg hb confirm = (doc, .cancelled) ∨
    on_create doc (some newName) naakt cfg hb confirm = (doc, .failedDup) ∨
    ∃ src ac newMat,
      duplicate_material doc src newName hb = some (ac, newMat) ∧
      on_create doc (some newName) naakt cfg hb confirm =
        (HostDoc.mk (doc.materials ++ [apply_patterns cfg hb.applyRaiseAt newMat]) ac,
         .created) := by
  simp only [on_create]
  by_cases hex : material_exists doc newName
  · rw [if_pos hex]; left; rfl
  · rw [if_neg hex]
    cases hfc : find_closest_material naakt (doc.materials.map RMaterial.name) with
    | none => right; left; rfl
    | some srcName =>
        cases hfind : doc.materials.find? (fun m => m.name == srcName) with
        | none => right; left; simp [hfind]
        | some src =>
            cases confirm with
            | false => right; right; left; simp [hfind]
            | true =>
                cases hdm : duplicate_material doc src newName hb with
                | none => right; right; right; left; simp [hfind, hdm]
                | some p =>
                    right; right; right; right
                    exact ⟨src, p.1, p.2, by rw [hdm], by simp [hfind, hdm]⟩


/-- A one-material document, a plain configuration and a host in which
the first statement of `_apply_patterns` throws. -/
def matBeton : RMaterial :=
  RMaterial.mk "Beton" none none none none none (0, 0, 0) (0, 0, 0) (0, 0, 0) (0, 0, 0)

def doc0 : HostDoc := HostDoc.mk [matBeton] 0

def cfg0 : PatternConfig :=
  PatternConfig.mk none none none (50, 50, 50) (200, 200, 200) (50, 50, 50) (180, 180, 180)

def hbApplyRaise : HostBehavior := HostBehavior.mk false false (some 0)

/-- C1 counterexample: with an exception thrown at the first statement of
`_apply_patterns` (caught inside that method), `_on_create` still commits:
the create succeeds and the host material count grows from 1 to 2, so an
exception during pattern/color application does not roll the transaction
back. -/
theorem create_commits_despite_apply_exception :
    hbApplyRaise.applyRaiseAt = some 0 ∧
    (on_create doc0 (some "beton_generiek_wand") "beton" cfg0 hbApplyRaise true).2 =
      CreateResult.created ∧
    (on_create doc0 (some "beton_generiek_wand") "beton" cfg0 hbApplyRaise
      true).1.materials.length = 2 ∧
    doc0.materials.length = 1 :=
  ⟨rfl, by decide, by decide, rfl⟩

/-- C1 amended: the transaction protects against duplication failures —
an invalid or pre-existing name, an unresolved source, a cancelled
confirmation and a thrown (or rejected) duplication all leave the host
document unchanged, and a thrown `Material.Duplicate` in particular ends
in rollback — but exceptions inside `_apply_patterns` are caught there,
so the create still commits and the new material (named as requested,
with whatever presentation fields were applied before the exception) is
appended whenever duplication succeeded; the document gains a material
exactly on the `created` outcome. -/
theorem create_transaction_spec (doc : HostDoc) (newName naakt : String)
    (cfg : PatternConfig) (hb : HostBehavior) (confirm : Bool) :
    on_create doc none naakt cfg hb confirm = (doc, CreateResult.invalidName) ∧
    (material_exists doc newName = true →
      on_create doc (some newName) naakt cfg hb confirm = (doc, CreateResult.alreadyExists)) ∧
    (hb.dupRaises = true →
      (on_create doc (some newName) naakt cfg hb confirm).1 = doc) ∧
    ((on_create doc (some newName) naakt cfg hb confirm).2 ≠ CreateResult.created →
      (on_create doc (some newName) naakt cfg hb confirm).1 = doc) ∧
    ((on_create doc (some newName) naakt cfg hb confirm).2 = CreateResult.created →
      ∃ m, (on_create doc (some newName) naakt cfg hb confirm).1.materials =
        doc.materials ++ [m] ∧ m.name = newName) := by
  refine ⟨rfl, ?_, ?_, ?_, ?_⟩
  · intro h
    simp only [on_create]
    rw [if_pos h]
  · intro hdup
    rcases on_create_cases doc newName naakt cfg hb confirm with
      h | h | h | h | ⟨src, ac, newMat, hdm, h⟩
    · rw [h]
    · rw [h]
    · rw [h]
    · rw [h]
    · exfalso
      simp only [duplicate_material] at hdm
      by_cases h1 : doc.materials.any (fun mm => mm.name == newName) = true
      · rw [if_pos h1] at hdm; exact absurd hdm (by simp)
      · rw [if_neg h1, if_pos hdup] at hdm; exact absurd hdm (by simp)
  · intro hne
    rcases on_create_cases doc newName naakt cfg hb confirm with
      h | h | h | h | ⟨src, ac, newMat, hdm, h⟩
    · rw [h]
    · rw [h]
    · rw [h]
    · rw [h]
    · rw [h] at hne; exact absurd rfl hne
  · intro hcr
    rcases on_create_cases doc newName naakt cfg hb confirm with
      h | h | h | h | ⟨src, ac, newMat, hdm, h⟩
    · rw [h] at hcr; simp at hcr
    · rw [h] at hcr; simp at hcr
    · rw [h] at hcr; simp at hcr
    · rw [h] at hcr; simp at hcr
    · rw [h]
      exact ⟨apply_patterns cfg hb.applyRaiseAt newMat, rfl,
        (apply_patterns_name cfg hb.applyRaiseAt newMat).trans
          (duplicate_material_name doc src newName hb ac newMat hdm)⟩

/-- Witness for `create_transaction_spec`: a thrown duplication on the
concrete one-material document leaves the document unchanged, and a
pre-existing name is rejected without mutation. -/
theorem create_transaction_spec_witness :
    (on_create doc0 (some "beton_generiek_wand") "beton" cfg0
      (HostBehavior.mk true false none) true).1 = doc0 ∧
    on_create doc0 (some "Beton") "beton" cfg0 (HostBehavior.mk true false none) true =
      (doc0, CreateResult.alreadyExists) :=
  ⟨(create_transaction_spec doc0 "beton_generiek_wand" "beton" cfg0
      (HostBehavior.mk true false none) true).2.2.1 rfl,
   (create_transaction_spec doc0 "Beton" "beton" cfg0
      (HostBehavior.mk true false none) true).2.1 (by decide)⟩


end NAAKT
